import Mathlib

/-!
Verification of the core data model of the `snd` repository: the
multi-scheme public-key abstraction (`src/keys/public_key.rs`), the
request/response protocol (`src/request.rs`, `src/readwrite/sequence.rs`),
and the Sequence data type with its permission/ownership model (modelled
from the specification where the implementation is not part of the
supplied sources).

Machine integers (`u8`, `u64`, `usize`) are modelled as `Nat`; byte
strings as `List Nat`; Rust's `Result<T, Error>` as the `RustResult`
inductive below; cryptographic primitives are opaque and supplied as a
record of boolean verification oracles.
-/

namespace Snd

/-- Models the crate's `Error` enum; the variants are those exercised by the
sources and the specification's error taxonomy (section 7). -/
inductive Error where
  | FailedToParse (msg : String)
  | SigningKeyTypeMismatch
  | InvalidSignature
  | InvalidIndex
  | InvalidOperation
  | VersionConflict
  | AccessDenied
deriving DecidableEq, Repr

/-- Models Rust's `Result<T, Error>` as used throughout the crate. -/
inductive RustResult (α : Type) where
  | Ok (value : α)
  | Err (error : Error)
deriving DecidableEq, Repr

/-- Models `ed25519_dalek::PublicKey`: an opaque 32-byte key. -/
structure Ed25519PublicKey where
  bytes : List Nat
deriving DecidableEq, Repr

/-- Models `threshold_crypto::PublicKey`: an opaque 48-byte key. -/
structure BlsPublicKey where
  bytes : List Nat
deriving DecidableEq, Repr

/-- Models `threshold_crypto::PublicKeyShare`: an opaque 48-byte key share. -/
structure BlsSharePublicKey where
  bytes : List Nat
deriving DecidableEq, Repr

/-- Models `ed25519_dalek::Signature`. -/
structure Ed25519Sig where
  bytes : List Nat
deriving DecidableEq, Repr

/-- Models `threshold_crypto::Signature`. -/
structure BlsSig where
  bytes : List Nat
deriving DecidableEq, Repr

/-- Models the crate's BLS signature share wrapper: the source accesses
`sig.share` when verifying (`public_key.rs` line 117). -/
structure BlsShareSig where
  index : Nat
  share : BlsSig
deriving DecidableEq, Repr

/-- Models `PublicKey` (`public_key.rs` lines 32-39): a tagged union over
the three supported schemes. -/
inductive PublicKey where
  | Ed25519 (key : Ed25519PublicKey)
  | Bls (key : BlsPublicKey)
  | BlsShare (key : BlsSharePublicKey)
deriving DecidableEq, Repr

/-- Models `Signature`: the tagged union mirroring `PublicKey`'s variants. -/
inductive Signature where
  | Ed25519 (sig : Ed25519Sig)
  | Bls (sig : BlsSig)
  | BlsShare (sig : BlsShareSig)
deriving DecidableEq, Repr

/-- The scheme tag of a key or signature. -/
inductive KeyVariant where
  | Ed25519
  | Bls
  | BlsShare
deriving DecidableEq, Repr

/-- Scheme tag of a `PublicKey`. -/
def PublicKey.variant : PublicKey → KeyVariant
  | .Ed25519 _ => .Ed25519
  | .Bls _ => .Bls
  | .BlsShare _ => .BlsShare

/-- Scheme tag of a `Signature`. -/
def Signature.variant : Signature → KeyVariant
  | .Ed25519 _ => .Ed25519
  | .Bls _ => .Bls
  | .BlsShare _ => .BlsShare

/-- The scheme-specific cryptographic verification primitives, which the
specification treats as opaque (section 1, non-goals). Each oracle takes
the key, the signature and the message bytes and says whether the
signature is cryptographically valid. -/
structure CryptoOps where
  edVerify : Ed25519PublicKey → Ed25519Sig → List Nat → Bool
  blsVerify : BlsPublicKey → BlsSig → List Nat → Bool
  blsShareVerify : BlsSharePublicKey → BlsSig → List Nat → Bool

/-- Models `PublicKey::to_bytes` (`public_key.rs` lines 74-80): the bytes of
the underlying scheme key. -/
def PublicKey.to_bytes : PublicKey → List Nat
  | .Ed25519 k => k.bytes
  | .Bls k => k.bytes
  | .BlsShare k => k.bytes

/-- Models `PublicKey::verify` (`public_key.rs` lines 111-125): dispatches
on the (key variant, signature variant) pair; a cross-variant pair returns
`Err(SigningKeyTypeMismatch)` at once; a matching pair runs the
scheme-specific verification and maps `false` to `Err(InvalidSignature)`.
For the BLS-share arm the source verifies `sig.share` against the key
share. -/
def PublicKey.verify (ops : CryptoOps) (pk : PublicKey) (signature : Signature)
    (data : List Nat) : RustResult Unit :=
  match pk, signature with
  | .Ed25519 k, .Ed25519 s =>
      if ops.edVerify k s data then .Ok () else .Err .InvalidSignature
  | .Bls k, .Bls s =>
      if ops.blsVerify k s data then .Ok () else .Err .InvalidSignature
  | .BlsShare k, .BlsShare s =>
      if ops.blsShareVerify k s.share data then .Ok () else .Err .InvalidSignature
  | _, _ => .Err .SigningKeyTypeMismatch

/-- The scheme-specific verification outcome for a matching (key,
signature) pair; `none` when the variants differ. -/
def schemeVerify (ops : CryptoOps) (pk : PublicKey) (signature : Signature)
    (data : List Nat) : Option Bool :=
  match pk, signature with
  | .Ed25519 k, .Ed25519 s => some (ops.edVerify k s data)
  | .Bls k, .Bls s => some (ops.blsVerify k s data)
  | .BlsShare k, .BlsShare s => some (ops.blsShareVerify k s.share data)
  | _, _ => none

/-- A 32-byte network address (`xor_name::XorName`), modelled as its byte
list. -/
abbrev XorName := List Nat

/-- Little-endian byte encoding of a `u32`, as the bincode wire format
writes enum variant tags. -/
def u32le (n : Nat) : List Nat :=
  [n % 256, n / 256 % 256, n / 65536 % 256, n / 16777216 % 256]

/-- Little-endian byte encoding of a `u64`, as the bincode wire format
writes byte-sequence lengths. -/
def u64le (n : Nat) : List Nat :=
  [n % 256, n / 256 % 256, n / 65536 % 256, n / 16777216 % 256,
   n / 4294967296 % 256, n / 1099511627776 % 256,
   n / 281474976710656 % 256, n / 72057594037927936 % 256]

/-- The bincode variant tag of a `PublicKey`, in declaration order. -/
def PublicKey.tag : PublicKey → Nat
  | .Ed25519 _ => 0
  | .Bls _ => 1
  | .BlsShare _ => 2

/-- Models `utils::serialise` applied to a `PublicKey`: the canonical
bincode encoding, a little-endian `u32` variant tag followed by the
length-prefixed bytes of the scheme key. -/
def serialise (pk : PublicKey) : List Nat :=
  u32le pk.tag ++ u64le pk.to_bytes.length ++ pk.to_bytes

/-- Lexicographic comparison of byte vectors, modelling `Vec<u8>::cmp`. -/
def lexCompare : List Nat → List Nat → Ordering
  | [], [] => .eq
  | [], _ :: _ => .lt
  | _ :: _, [] => .gt
  | a :: t₁, b :: t₂ =>
      match compare a b with
      | .eq => lexCompare t₁ t₂
      | o => o

/-- Models `Ord for PublicKey` (`public_key.rs` lines 145-151): compare the
canonical serialisations. -/
def PublicKey.cmp (a b : PublicKey) : Ordering :=
  lexCompare (serialise a) (serialise b)

/-- Models `PartialOrd for PublicKey` (`public_key.rs` lines 153-157):
`partial_cmp` always returns `Some(self.cmp(other))`. -/
def PublicKey.pcmp (a b : PublicKey) : Option Ordering :=
  some (PublicKey.cmp a b)

/-- Models `Hash for PublicKey` (`public_key.rs` lines 139-143): hash the
canonical serialisation, for an arbitrary hasher `h`. -/
def PublicKey.hashWith (h : List Nat → Nat) (pk : PublicKey) : Nat :=
  h (serialise pk)

/-- Models the slice expression `&bytes[..n]`, which panics (here: `none`)
when fewer than `n` bytes are available. -/
def sliceTo (l : List Nat) (n : Nat) : Option (List Nat) :=
  if n ≤ l.length then some (l.take n) else none

/-- Models `<[u8]>::clone_from_slice`: overwrites `dst` with `src`,
panicking (here: `none`) when the lengths differ. -/
def cloneFromSlice (dst src : List Nat) : Option (List Nat) :=
  if dst.length = src.length then some src else none

/-- Models `impl From<PublicKey> for XorName` (`public_key.rs` lines
159-172): an Ed25519 key's 32 bytes become the name directly; for a BLS
key or key share the code starts from `XorName::random()` (whose byte
content is the `random` argument here) and then wholly overwrites its 32
bytes with the first `XOR_NAME_LEN = 32` bytes of the key via
`clone_from_slice`. -/
def xorNameOfPublicKey (random : List Nat) : PublicKey → Option XorName
  | .Ed25519 k => some k.bytes
  | .Bls k => (sliceTo k.bytes 32).bind (cloneFromSlice random)
  | .BlsShare k => (sliceTo k.bytes 32).bind (cloneFromSlice random)

/-- The length invariants of the underlying scheme keys: Ed25519 public
keys are 32 bytes, BLS public keys and key shares are 48 bytes. -/
def PublicKey.wellFormed : PublicKey → Prop
  | .Ed25519 k => k.bytes.length = 32
  | .Bls k => k.bytes.length = 48
  | .BlsShare k => k.bytes.length = 48

/-- ASCII code of the lowercase hex digit of `n < 16`, as produced by
`hex::encode`. -/
def hexDigit (n : Nat) : Nat :=
  if n < 10 then 48 + n else 87 + n

/-- Models `hex::encode`: two lowercase hex digits per byte, as a list of
ASCII codes. -/
def hexEncode (bytes : List Nat) : List Nat :=
  bytes.flatMap (fun b => [hexDigit (b / 16), hexDigit (b % 16)])

/-- ASCII codes of a string literal. -/
def strCodes (s : String) : List Nat :=
  s.toList.map Char.toNat

/-- Models the `{:<8}` format specifier: left-align and pad on the right
with spaces (ASCII 32) up to the minimum width `w`; a longer argument is
written in full, never truncated. -/
def padLeftAlign (w : Nat) (s : List Nat) : List Nat :=
  s ++ List.replicate (w - s.length) 32

/-- Models `impl Debug for PublicKey` (`public_key.rs` lines 198-221):
writes `PublicKey::`, the variant name, and the hex encoding of the key
bytes — the full key bytes for Ed25519, the slice `[..XOR_NAME_LEN]` (the
first 32 of the fixed 48 bytes, modelled with `take`) for BLS and
BLS-share — under the `{:<8}` left-aligned minimum width. -/
def debugFmt : PublicKey → List Nat
  | .Ed25519 k =>
      strCodes "PublicKey::" ++ strCodes "Ed25519(" ++
        padLeftAlign 8 (hexEncode k.bytes) ++ strCodes ")"
  | .Bls k =>
      strCodes "PublicKey::" ++ strCodes "Bls(" ++
        padLeftAlign 8 (hexEncode (k.bytes.take 32)) ++ strCodes ")"
  | .BlsShare k =>
      strCodes "PublicKey::" ++ strCodes "BlsShare(" ++
        padLeftAlign 8 (hexEncode (k.bytes.take 32)) ++ strCodes ")"

/-- Models `impl Display for PublicKey` (`public_key.rs` lines 223-227):
delegates to the `Debug` implementation. -/
def displayFmt (pk : PublicKey) : List Nat :=
  debugFmt pk

/-- Models `SDataIndex` (the `Index` used by `request.rs`): relative
addressing from the start or from the end of a Sequence. -/
inductive Index where
  | FromStart (n : Nat)
  | FromEnd (n : Nat)
deriving DecidableEq, Repr

/-- Modelled from the spec: index resolution against the current length
(spec section 4.3) — the Sequence data implementation is not among the
supplied sources. `FromStart(n)` is valid iff `n < length`; `FromEnd(n)`
maps to `length - n` and is valid iff `n ≤ length`, with `FromEnd(0)`
denoting one-past-the-last. -/
def resolve : Index → Nat → Option Nat
  | .FromStart n, length => if n < length then some n else none
  | .FromEnd n, length => if n ≤ length then some (length - n) else none

/-- Modelled from the spec: the error surface of index resolution — a
failing resolution is reported as an `InvalidIndex`-class error, never
clamped to a valid offset. -/
def resolveOrErr (i : Index) (length : Nat) : RustResult Nat :=
  match resolve i length with
  | some n => .Ok n
  | none => .Err .InvalidIndex

/-- Models `SDataAddress`: a `XorName` plus the public/private
discriminant (spec section 3). -/
inductive Address where
  | Public (name : XorName)
  | Private (name : XorName)
deriving DecidableEq, Repr

/-- Models `Address::is_pub`, as used by `readwrite/sequence.rs`. -/
def Address.is_pub : Address → Bool
  | .Public _ => true
  | .Private _ => false

/-- Models `Address::name`: the embedded routing `XorName`. -/
def Address.name : Address → XorName
  | .Public n => n
  | .Private n => n

/-- Modelled from the spec: the action categories subject to authorization
(spec glossary); the `AccessType` enum of `auth/auth.rs` is not among the
supplied sources. -/
inductive AccessType where
  | Read
  | Append
  | ManagePermissions
deriving DecidableEq, Repr

/-- Models `SDataUser` (`User`): a specific key or the "everyone" sentinel
of public data. -/
inductive User where
  | Key (key : PublicKey)
  | Anyone
deriving DecidableEq, Repr

/-- Modelled from the spec: a requester of an action — the current owner,
a specific key, or anonymous (spec section 4.2). -/
inductive Requester where
  | Owner
  | Key (key : PublicKey)
  | Anon
deriving DecidableEq, Repr

/-- Modelled from the spec: one public permissions-history entry, mapping
`User` (specific key or the "everyone" sentinel) to an allowed-action
set (spec section 3). -/
structure PubPermissionEntry where
  perms : List (User × List AccessType)
deriving DecidableEq, Repr

/-- Modelled from the spec: one private permissions-history entry, mapping
a specific `PublicKey` to an allowed-action set — no "everyone" sentinel
(spec section 3). -/
structure PrivPermissionEntry where
  perms : List (PublicKey × List AccessType)
deriving DecidableEq, Repr

/-- The crate's `PublicPermissions` type, one entry of the public
permissions history. -/
abbrev PublicPermissions := PubPermissionEntry

/-- The crate's `PrivatePermissions` type, one entry of the private
permissions history. -/
abbrev PrivatePermissions := PrivPermissionEntry

/-- First association of a key in an assoc list of permission grants. -/
def assocFind {κ : Type} [DecidableEq κ] (k : κ) :
    List (κ × List AccessType) → Option (List AccessType)
  | [] => none
  | (k₂, acts) :: rest => if k = k₂ then some acts else assocFind k rest

/-- Whether a public permissions entry grants `action` to `user`. -/
def PubPermissionEntry.grants (entry : PubPermissionEntry) (user : User)
    (action : AccessType) : Bool :=
  match assocFind user entry.perms with
  | some acts => acts.contains action
  | none => false

/-- Whether a private permissions entry grants `action` to `key`. -/
def PrivPermissionEntry.grants (entry : PrivPermissionEntry) (key : PublicKey)
    (action : AccessType) : Bool :=
  match assocFind key entry.perms with
  | some acts => acts.contains action
  | none => false

/-- Modelled from the spec: the access decision on public data (spec
section 4.2) — the `is_allowed` implementation of `auth/auth.rs` is not
among the supplied sources. Owners pass every check; otherwise only the
most recent permissions-history entry is consulted, granting through the
requester's specific key or the "everyone" sentinel, and an anonymous
requester can only be granted through the sentinel. -/
def isAllowedPub (history : List PubPermissionEntry) (requester : Requester)
    (action : AccessType) : Bool :=
  match requester with
  | .Owner => true
  | .Anon =>
      match history.getLast? with
      | some entry => entry.grants .Anyone action
      | none => false
  | .Key k =>
      match history.getLast? with
      | some entry => entry.grants (.Key k) action || entry.grants .Anyone action
      | none => false

/-- Modelled from the spec: the access decision on private data (spec
section 4.2) — owners pass every check; a specific key is allowed only if
the most recent permissions-history entry explicitly grants the action to
that key; an anonymous requester is always denied. -/
def isAllowedPriv (history : List PrivPermissionEntry) (requester : Requester)
    (action : AccessType) : Bool :=
  match requester with
  | .Owner => true
  | .Anon => false
  | .Key k =>
      match history.getLast? with
      | some entry => entry.grants k action
      | none => false

/-- Models `SDataEntry`: an opaque byte payload. -/
abbrev Entry := List Nat

/-- Models `SDataOwner` (`Owner`): a public key plus the history indices
at which it took effect (spec section 3). -/
structure Owner where
  public_key : PublicKey
  entries_index : Nat
  permissions_index : Nat
deriving DecidableEq, Repr

/-- Modelled from the spec: the Sequence record — address, ordered entry
log, owner history and permissions histories (spec section 3); the
`SData` implementation is not among the supplied sources. -/
structure Sequence where
  address : Address
  entries : List Entry
  owners : List Owner
  pub_permissions : List PubPermissionEntry
  priv_permissions : List PrivPermissionEntry
deriving DecidableEq, Repr

/-- Modelled from the spec: applying `SetOwner` with optimistic
concurrency (spec sections 4.2, 5) — appends to the owner history when
`expected_index` equals the current owner-history length, otherwise
rejects with `VersionConflict`; being a pure function, a rejection
produces no changed Sequence. -/
def Sequence.set_owner (s : Sequence) (owner : Owner)
    (expected_index : Nat) : RustResult Sequence :=
  if expected_index = s.owners.length then
    .Ok { s with owners := s.owners ++ [owner] }
  else
    .Err .VersionConflict

/-- Modelled from the spec: applying `SetPublicSequencePermissions` with
optimistic concurrency against the public permissions history. -/
def Sequence.set_pub_permissions (s : Sequence)
    (permissions : PublicPermissions) (expected_index : Nat) :
    RustResult Sequence :=
  if expected_index = s.pub_permissions.length then
    .Ok { s with pub_permissions := s.pub_permissions ++ [permissions] }
  else
    .Err .VersionConflict

/-- Modelled from the spec: applying `SetPrivateSequencePermissions` with
optimistic concurrency against the private permissions history. -/
def Sequence.set_priv_permissions (s : Sequence)
    (permissions : PrivatePermissions) (expected_index : Nat) :
    RustResult Sequence :=
  if expected_index = s.priv_permissions.length then
    .Ok { s with priv_permissions := s.priv_permissions ++ [permissions] }
  else
    .Err .VersionConflict

/-- Modelled from the spec: whole-object deletion of a Sequence held in a
store of sequences by address (spec section 4.3; the doc comments of
`SequenceWrite::Delete` and `Request::DeletePrivateSequence` state the
operation must fail on public data). Returns the updated store with the
outcome: a public address fails with `InvalidOperation` and leaves the
store unchanged; a private address removes the entry. -/
def applyDelete (store : List (Address × Sequence)) (address : Address) :
    List (Address × Sequence) × Option Error :=
  if address.is_pub then
    (store, some .InvalidOperation)
  else
    (store.filter (fun p => p.1 != address), none)

/-- Models the `Type` enum of the readwrite module (`Type` is reserved in
Lean, so it is named `RwType` here): the classification returned by
`get_type`. -/
inductive RwType where
  | PublicRead
  | PrivateRead
  | Write
deriving DecidableEq, Repr

/-- Models `DataAuthKind`: the data-access authorization categories used
by `readwrite/sequence.rs`. -/
inductive DataAuthKind where
  | PublicRead
  | PrivateRead
  | Write
deriving DecidableEq, Repr

/-- Models `AuthorisationKind` as used by the readwrite module; `Data` is
the constructor exercised by the supplied sources, `ManageAppKeys` appears
in the specification's classification (section 4.4). -/
inductive AuthorisationKind where
  | Data (kind : DataAuthKind)
  | ManageAppKeys
deriving DecidableEq, Repr

/-- Models `SDataWriteOp<T>`: the address plus the payload of a versioned
Sequence write; the destination accessor `op.address` is what
`readwrite/sequence.rs` uses. -/
structure WriteOp (α : Type) where
  address : Address
  item : α
deriving DecidableEq, Repr

/-- Models `SequenceRead` (`readwrite/sequence.rs` lines 21-53). -/
inductive SequenceRead where
  | Get (address : Address)
  | GetRange (address : Address) (range : Index × Index)
  | GetLastEntry (address : Address)
  | GetPermissions (address : Address)
  | GetUserPermissions (address : Address) (user : User)
  | GetOwner (address : Address)
deriving DecidableEq, Repr

/-- Models `SequenceWrite` (`readwrite/sequence.rs` lines 58-74). -/
inductive SequenceWrite where
  | New (data : Sequence)
  | Edit (op : WriteOp Entry)
  | Delete (address : Address)
  | SetOwner (op : WriteOp Owner)
  | SetPubPermissions (op : WriteOp PublicPermissions)
  | SetPrivPermissions (op : WriteOp PrivatePermissions)
deriving DecidableEq, Repr

/-- Models `SequenceRead::get_type` (`readwrite/sequence.rs` lines 78-94):
a public address gives `Type::PublicRead`, a private address
`Type::PrivateRead`. -/
def SequenceRead.get_type : SequenceRead → RwType
  | .Get address | .GetRange address _ | .GetLastEntry address
  | .GetPermissions address | .GetUserPermissions address _
  | .GetOwner address =>
      if address.is_pub then RwType.PublicRead else RwType.PrivateRead

/-- Models `SequenceRead::authorisation_kind` (`readwrite/sequence.rs`
lines 111-127). -/
def SequenceRead.authorisation_kind : SequenceRead → AuthorisationKind
  | .Get address | .GetRange address _ | .GetLastEntry address
  | .GetPermissions address | .GetUserPermissions address _
  | .GetOwner address =>
      if address.is_pub then AuthorisationKind.Data DataAuthKind.PublicRead
      else AuthorisationKind.Data DataAuthKind.PrivateRead

/-- Models `SequenceWrite::get_type` (`readwrite/sequence.rs` lines
163-165): always `Type::Write`. -/
def SequenceWrite.get_type (_ : SequenceWrite) : RwType :=
  RwType.Write

/-- Models `SequenceWrite::authorisation_kind` (`readwrite/sequence.rs`
lines 174-176): always `Data(Write)`. -/
def SequenceWrite.authorisation_kind (_ : SequenceWrite) : AuthorisationKind :=
  AuthorisationKind.Data DataAuthKind.Write

/-- Models `BlobData`: an opaque blob payload (its internals are external
to the supplied sources). -/
structure BlobData where
  payload : List Nat
deriving DecidableEq, Repr

/-- Models `BlobAddress` as exercised by `data/blob_tests.rs`: a `XorName`
with a public/private discriminant. -/
inductive BlobAddress where
  | Public (name : XorName)
  | Private (name : XorName)
deriving DecidableEq, Repr

/-- Models `MapData`: an opaque map payload (its internals are external to
the supplied sources). -/
structure MapData where
  payload : List Nat
deriving DecidableEq, Repr

/-- The crate's `SequenceData` is the Sequence record. -/
abbrev SequenceData := Sequence

/-- Models `SequenceCmd`: an append command targeting a Sequence (its
internals are external to the supplied sources). -/
structure SequenceCmd where
  address : Address
  values : List Entry
deriving DecidableEq, Repr

/-- Models `Coins`: a coin amount in indivisible units. -/
abbrev Coins := Nat

/-- Models `TransactionId`: a `u64` transaction identifier. -/
abbrev TransactionId := Nat

/-- Models `LoginPacket`: an opaque login-packet payload (its internals
are external to the supplied sources). -/
structure LoginPacket where
  destination : XorName
  data : List Nat
deriving DecidableEq, Repr

/-- Models `AppPermissions`: the capability flags of an authorised app
key. -/
structure AppPermissions where
  transfer_coins : Bool
  perform_mutations : Bool
  get_balance : Bool
deriving DecidableEq, Repr

/-- Models `Request` (`request.rs` lines 40-218): the closed tagged union
of client-to-vault operations, one constructor per active (uncommented)
variant, in declaration order. -/
inductive Request where
  | PutBlob (data : BlobData)
  | GetBlob (address : BlobAddress)
  | DeletePrivateBlob (address : BlobAddress)
  | PutMap (data : MapData)
  | DeletePrivateMap (address : Address)
  | PutSequence (data : SequenceData)
  | GetSequence (address : Address)
  | GetSequenceShell (address : Address) (data_index : Index)
  | DeletePrivateSequence (address : Address)
  | GetSequenceRange (address : Address) (range : Index × Index)
  | GetSequenceValue (address : Address) (key : List Nat)
  | GetSequenceIndices (address : Address)
  | GetSequenceCurrentEntry (address : Address)
  | GetSequenceAuthorization (address : Address) (index : Index)
  | GetPublicUserPermissions (address : Address) (index : Index) (user : User)
  | GetPrivateUserPermissions (address : Address) (index : Index)
      (public_key : PublicKey)
  | GetOwners (address : Address) (index : Index)
  | SetPublicSequencePermissions (address : Address)
      (permissions : PublicPermissions) (expected_index : Nat)
  | SetPrivateSequencePermissions (address : Address)
      (permissions : PrivatePermissions) (expected_index : Nat)
  | SetOwner (address : Address) (owner : Owner) (expected_index : Nat)
  | AppendSentried (app : SequenceCmd) (index : Nat)
  | Append (cmd : SequenceCmd)
  | TransferCoins (destination : XorName) (amount : Coins)
      (transaction_id : TransactionId)
  | GetBalance
  | CreateBalance (new_balance_owner : PublicKey) (amount : Coins)
      (transaction_id : TransactionId)
  | CreateLoginPacket (packet : LoginPacket)
  | CreateLoginPacketFor (new_owner : PublicKey) (amount : Coins)
      (transaction_id : TransactionId) (new_login_packet : LoginPacket)
  | UpdateLoginPacket (packet : LoginPacket)
  | GetLoginPacket (name : XorName)
  | ListAuthKeysAndVersion
  | InsAuthKey (key : PublicKey) (version : Nat)
      (permissions : AppPermissions)
  | DelAuthKey (key : PublicKey) (version : Nat)
deriving DecidableEq, Repr

/-- Models the crate's `Response` enum as exercised by
`Request::error_response` and by the readwrite module (the enum
declaration itself is not among the supplied sources, only its uses); the
success payload of each variant is external to the supplied sources and
modelled as `Unit` — only the enclosed result's error side is exercised
here. -/
inductive Response where
  | GetBlob (result : RustResult Unit)
  | GetSequence (result : RustResult Unit)
  | GetSequenceShell (result : RustResult Unit)
  | GetSequenceValue (result : RustResult Unit)
  | GetSequenceRange (result : RustResult Unit)
  | GetExpectedIndices (result : RustResult Unit)
  | GetSequenceCurrentEntry (result : RustResult Unit)
  | GetSequenceAuthorization (result : RustResult Unit)
  | GetPublicSequenceUserPermissions (result : RustResult Unit)
  | GetPrivateSequenceUserPermissions (result : RustResult Unit)
  | GetOwners (result : RustResult Unit)
  | Transaction (result : RustResult Unit)
  | GetBalance (result : RustResult Unit)
  | GetLoginPacket (result : RustResult Unit)
  | ListAuthKeysAndVersion (result : RustResult Unit)
  | Mutation (result : RustResult Unit)
  | GetSData (result : RustResult Unit)
  | GetSDataRange (result : RustResult Unit)
  | GetSDataLastEntry (result : RustResult Unit)
  | GetSDataPermissions (result : RustResult Unit)
  | GetSDataUserPermissions (result : RustResult Unit)
  | GetSDataOwner (result : RustResult Unit)
  | Write (result : RustResult Unit)
deriving DecidableEq, Repr

/-- The result enclosed in a `Response` variant. -/
def Response.enclosedResult : Response → RustResult Unit
  | .GetBlob r | .GetSequence r | .GetSequenceShell r | .GetSequenceValue r
  | .GetSequenceRange r | .GetExpectedIndices r | .GetSequenceCurrentEntry r
  | .GetSequenceAuthorization r | .GetPublicSequenceUserPermissions r
  | .GetPrivateSequenceUserPermissions r | .GetOwners r | .Transaction r
  | .GetBalance r | .GetLoginPacket r | .ListAuthKeysAndVersion r
  | .Mutation r | .GetSData r | .GetSDataRange r | .GetSDataLastEntry r
  | .GetSDataPermissions r | .GetSDataUserPermissions r | .GetSDataOwner r
  | .Write r => r

/-- Models `Request::error_response` (`request.rs` lines 223-287): each
read variant maps to its matching error-carrying read-response variant
(`GetSequenceIndices` to `GetExpectedIndices`, the coin operations to
`Transaction`/`GetBalance`); every write variant maps uniformly to
`Mutation(Err(error))`. -/
def Request.error_response (r : Request) (error : Error) : Response :=
  match r with
  | .GetBlob _ => .GetBlob (.Err error)
  | .GetSequence _ => .GetSequence (.Err error)
  | .GetSequenceShell _ _ => .GetSequenceShell (.Err error)
  | .GetSequenceValue _ _ => .GetSequenceValue (.Err error)
  | .GetSequenceRange _ _ => .GetSequenceRange (.Err error)
  | .GetSequenceIndices _ => .GetExpectedIndices (.Err error)
  | .GetSequenceCurrentEntry _ => .GetSequenceCurrentEntry (.Err error)
  | .GetSequenceAuthorization _ _ => .GetSequenceAuthorization (.Err error)
  | .GetPublicUserPermissions _ _ _ =>
      .GetPublicSequenceUserPermissions (.Err error)
  | .GetPrivateUserPermissions _ _ _ =>
      .GetPrivateSequenceUserPermissions (.Err error)
  | .GetOwners _ _ => .GetOwners (.Err error)
  | .TransferCoins _ _ _ => .Transaction (.Err error)
  | .GetBalance => .GetBalance (.Err error)
  | .CreateBalance _ _ _ => .Transaction (.Err error)
  | .GetLoginPacket _ => .GetLoginPacket (.Err error)
  | .ListAuthKeysAndVersion => .ListAuthKeysAndVersion (.Err error)
  | .PutBlob _ | .DeletePrivateBlob _ | .PutMap _ | .DeletePrivateMap _
  | .PutSequence _ | .DeletePrivateSequence _
  | .SetPublicSequencePermissions _ _ _
  | .SetPrivateSequencePermissions _ _ _
  | .SetOwner _ _ _ | .AppendSentried _ _ | .Append _
  | .CreateLoginPacket _ | .CreateLoginPacketFor _ _ _ _
  | .UpdateLoginPacket _ | .InsAuthKey _ _ _ | .DelAuthKey _ _ =>
      .Mutation (.Err error)

/-- The write variants of `Request`: those the source's `error_response`
groups into the uniform `Mutation` arm. -/
def Request.is_write : Request → Bool
  | .PutBlob _ | .DeletePrivateBlob _ | .PutMap _ | .DeletePrivateMap _
  | .PutSequence _ | .DeletePrivateSequence _
  | .SetPublicSequencePermissions _ _ _
  | .SetPrivateSequencePermissions _ _ _
  | .SetOwner _ _ _ | .AppendSentried _ _ | .Append _
  | .CreateLoginPacket _ | .CreateLoginPacketFor _ _ _ _
  | .UpdateLoginPacket _ | .InsAuthKey _ _ _ | .DelAuthKey _ _ => true
  | _ => false

/-- Models `SequenceRead::error_response` (`readwrite/sequence.rs` lines
98-108): each read variant maps to its matching error-carrying
`GetSData*` response variant. -/
def SequenceRead.error_response (r : SequenceRead) (error : Error) : Response :=
  match r with
  | .Get _ => .GetSData (.Err error)
  | .GetRange _ _ => .GetSDataRange (.Err error)
  | .GetLastEntry _ => .GetSDataLastEntry (.Err error)
  | .GetPermissions _ => .GetSDataPermissions (.Err error)
  | .GetUserPermissions _ _ => .GetSDataUserPermissions (.Err error)
  | .GetOwner _ => .GetSDataOwner (.Err error)

/-- Models `SequenceWrite::error_response` (`readwrite/sequence.rs` lines
169-171): uniformly `Write(Err(error))`. -/
def SequenceWrite.error_response (_ : SequenceWrite) (error : Error) :
    Response :=
  .Write (.Err error)

end Snd

namespace Snd

/-- Claim C1: for every `PublicKey`, `Signature` and message, if the key
variant and the signature variant differ then `PublicKey::verify` returns
`Err(SigningKeyTypeMismatch)` (hence never `Err(InvalidSignature)`); if the
variants match then the scheme-specific verification runs and `verify`
returns `Ok(())` exactly when it succeeds, `Err(InvalidSignature)`
otherwise. -/
theorem verify_variant_dispatch (ops : CryptoOps) (pk : PublicKey)
    (signature : Signature) (data : List Nat) :
    (pk.variant ≠ signature.variant →
      pk.verify ops signature data = .Err .SigningKeyTypeMismatch) ∧
    (pk.variant = signature.variant →
      ∃ b : Bool, schemeVerify ops pk signature data = some b ∧
        pk.verify ops signature data =
          (if b then .Ok () else .Err .InvalidSignature)) := by
  constructor
  · intro hne
    cases pk <;> cases signature <;>
      simp [PublicKey.variant, Signature.variant] at hne ⊢ <;>
      rfl
  · intro heq
    cases pk <;> cases signature <;>
      simp [PublicKey.variant, Signature.variant] at heq <;>
      exact ⟨_, rfl, rfl⟩

/-- Witness for C1: a concrete Ed25519 key given a BLS signature yields
`SigningKeyTypeMismatch`, and a matching Ed25519 pair under an
always-true oracle yields `Ok(())`. -/
theorem verify_variant_dispatch_witness :
    (PublicKey.Ed25519 ⟨List.replicate 32 0⟩).verify
        ⟨fun _ _ _ => true, fun _ _ _ => true, fun _ _ _ => true⟩
        (Signature.Bls ⟨List.replicate 96 0⟩) [1, 2, 3]
      = .Err .SigningKeyTypeMismatch ∧
    ∃ b : Bool,
      schemeVerify ⟨fun _ _ _ => true, fun _ _ _ => true, fun _ _ _ => true⟩
          (PublicKey.Ed25519 ⟨List.replicate 32 0⟩)
          (Signature.Ed25519 ⟨List.replicate 64 0⟩) [1, 2, 3] = some b ∧
        (PublicKey.Ed25519 ⟨List.replicate 32 0⟩).verify
            ⟨fun _ _ _ => true, fun _ _ _ => true, fun _ _ _ => true⟩
            (Signature.Ed25519 ⟨List.replicate 64 0⟩) [1, 2, 3]
          = (if b then .Ok () else .Err .InvalidSignature) := by
  constructor
  · exact (verify_variant_dispatch _ _ _ _).1 (by decide)
  · exact (verify_variant_dispatch _ _ _ _).2 rfl

/-- `lexCompare` returns `eq` exactly on equal byte lists. -/
theorem lexCompare_eq_iff : ∀ l₁ l₂ : List Nat,
    lexCompare l₁ l₂ = Ordering.eq ↔ l₁ = l₂
  | [], [] => by simp [lexCompare]
  | [], _ :: _ => by simp [lexCompare]
  | _ :: _, [] => by simp [lexCompare]
  | a :: t₁, b :: t₂ => by
      have ih := lexCompare_eq_iff t₁ t₂
      cases h : compare a b with
      | lt =>
          have hne : a ≠ b := Nat.ne_of_lt (Nat.compare_eq_lt.mp h)
          simp [lexCompare, h, hne]
      | eq =>
          have heq : a = b := Nat.compare_eq_eq.mp h
          subst heq
          simp [lexCompare, h, ih]
      | gt =>
          have hne : a ≠ b := Nat.ne_of_gt (Nat.compare_eq_gt.mp h)
          simp [lexCompare, h, hne]

/-- Swapping the arguments of `lexCompare` swaps the ordering. -/
theorem lexCompare_swap : ∀ l₁ l₂ : List Nat,
    (lexCompare l₁ l₂).swap = lexCompare l₂ l₁
  | [], [] => by simp [lexCompare, Ordering.swap]
  | [], _ :: _ => by simp [lexCompare, Ordering.swap]
  | _ :: _, [] => by simp [lexCompare, Ordering.swap]
  | a :: t₁, b :: t₂ => by
      have ih := lexCompare_swap t₁ t₂
      cases h : compare a b with
      | lt =>
          have h₂ : compare b a = Ordering.gt :=
            Nat.compare_eq_gt.mpr (Nat.compare_eq_lt.mp h)
          simp [lexCompare, h, h₂, Ordering.swap]
      | eq =>
          have hab : a = b := Nat.compare_eq_eq.mp h
          have h₂ : compare b a = Ordering.eq := Nat.compare_eq_eq.mpr hab.symm
          simp [lexCompare, h, h₂, ih]
      | gt =>
          have h₂ : compare b a = Ordering.lt :=
            Nat.compare_eq_lt.mpr (Nat.compare_eq_gt.mp h)
          simp [lexCompare, h, h₂, Ordering.swap]

/-- Claim C8: `cmp` on `PublicKey` is the lexicographic byte comparison of
the canonical serialisations, `partial_cmp` always returns `Some` (the
order is total, with `eq` holding exactly on equal serialisations and the
order antisymmetric under argument swap), and hashing is computed over the
same canonical serialised bytes, so equal serialisations give equal
hashes. -/
theorem publicKey_order_hash_canonical (a b : PublicKey) :
    PublicKey.pcmp a b = some (PublicKey.cmp a b) ∧
    PublicKey.cmp a b = lexCompare (serialise a) (serialise b) ∧
    (PublicKey.cmp a b = Ordering.eq ↔ serialise a = serialise b) ∧
    (PublicKey.cmp a b).swap = PublicKey.cmp b a ∧
    (∀ h : List Nat → Nat, PublicKey.hashWith h a = h (serialise a)) ∧
    (∀ h : List Nat → Nat, serialise a = serialise b →
      PublicKey.hashWith h a = PublicKey.hashWith h b) := by
  refine ⟨rfl, rfl, lexCompare_eq_iff _ _, lexCompare_swap _ _,
    fun h => rfl, fun h hs => ?_⟩
  simp [PublicKey.hashWith, hs]

/-- Witness for C8: evaluated at two concrete Ed25519 keys. -/
theorem publicKey_order_hash_canonical_witness :
    PublicKey.pcmp (PublicKey.Ed25519 ⟨List.replicate 32 0⟩)
        (PublicKey.Ed25519 ⟨List.replicate 32 1⟩)
      = some (PublicKey.cmp (PublicKey.Ed25519 ⟨List.replicate 32 0⟩)
          (PublicKey.Ed25519 ⟨List.replicate 32 1⟩)) ∧
    PublicKey.hashWith List.length (PublicKey.Ed25519 ⟨List.replicate 32 0⟩)
      = PublicKey.hashWith List.length (PublicKey.Ed25519 ⟨List.replicate 32 0⟩) :=
  ⟨(publicKey_order_hash_canonical _ _).1,
    (publicKey_order_hash_canonical
      (PublicKey.Ed25519 ⟨List.replicate 32 0⟩)
      (PublicKey.Ed25519 ⟨List.replicate 32 0⟩)).2.2.2.2.2 List.length rfl⟩

/-- Claim C7: the `XorName` derived from a `PublicKey` is a pure,
deterministic function of the key's serialised bytes — independent of the
random name the BLS arms start from — with an Ed25519 key's 32 bytes
copied directly and a BLS key's or key share's name the first 32 bytes of
its serialised form; well-formed keys with equal bytes get equal names. -/
theorem xorName_of_key_deterministic (random : List Nat)
    (hr : random.length = 32) :
    (∀ k : Ed25519PublicKey,
      xorNameOfPublicKey random (.Ed25519 k) = some k.bytes) ∧
    (∀ k : BlsPublicKey, k.bytes.length = 48 →
      xorNameOfPublicKey random (.Bls k) = some (k.bytes.take 32)) ∧
    (∀ k : BlsSharePublicKey, k.bytes.length = 48 →
      xorNameOfPublicKey random (.BlsShare k) = some (k.bytes.take 32)) ∧
    (∀ r₂ : List Nat, r₂.length = 32 → ∀ pk : PublicKey,
      xorNameOfPublicKey random pk = xorNameOfPublicKey r₂ pk) ∧
    (∀ pk₁ pk₂ : PublicKey, pk₁.wellFormed → pk₂.wellFormed →
      pk₁.to_bytes = pk₂.to_bytes →
      xorNameOfPublicKey random pk₁ = xorNameOfPublicKey random pk₂) := by
  refine ⟨fun k => rfl, ?_, ?_, ?_, ?_⟩
  · intro k hk
    simp [xorNameOfPublicKey, sliceTo, cloneFromSlice, hk, hr]
  · intro k hk
    simp [xorNameOfPublicKey, sliceTo, cloneFromSlice, hk, hr]
  · intro r₂ hr₂ pk
    cases pk with
    | Ed25519 k => rfl
    | Bls k =>
        by_cases h : 32 ≤ k.bytes.length
        · simp [xorNameOfPublicKey, sliceTo, cloneFromSlice, h, hr, hr₂,
            Nat.min_eq_left h]
        · simp [xorNameOfPublicKey, sliceTo, h]
    | BlsShare k =>
        by_cases h : 32 ≤ k.bytes.length
        · simp [xorNameOfPublicKey, sliceTo, cloneFromSlice, h, hr, hr₂,
            Nat.min_eq_left h]
        · simp [xorNameOfPublicKey, sliceTo, h]
  · intro pk₁ pk₂ hw₁ hw₂ hb
    cases pk₁ <;> cases pk₂ <;>
      simp only [PublicKey.wellFormed, PublicKey.to_bytes] at hw₁ hw₂ hb <;>
      first
        | (simp [xorNameOfPublicKey, hb]; done)
        | (exfalso
           have hlen := congrArg List.length hb
           rw [hw₁, hw₂] at hlen
           exact absurd hlen (by decide))

/-- Witness for C7: evaluated at a concrete random name and concrete
Ed25519 and BLS keys. -/
theorem xorName_of_key_deterministic_witness :
    xorNameOfPublicKey (List.replicate 32 5)
        (PublicKey.Ed25519 ⟨List.replicate 32 7⟩) = some (List.replicate 32 7) ∧
    xorNameOfPublicKey (List.replicate 32 5)
        (PublicKey.Bls ⟨List.replicate 48 9⟩)
      = some ((List.replicate 48 9).take 32) :=
  ⟨(xorName_of_key_deterministic _ (by decide)).1 _,
    (xorName_of_key_deterministic _ (by decide)).2.1 _ (by decide)⟩

/-- The hex encoding writes exactly two characters per byte. -/
theorem hexEncode_length (l : List Nat) : (hexEncode l).length = 2 * l.length := by
  induction l with
  | nil => rfl
  | cons b t ih =>
      simp only [hexEncode, List.flatMap_cons] at ih ⊢
      simp only [List.length_append, List.length_cons, List.length_nil]
      omega

/-- The hex encoding distributes over list append. -/
theorem hexEncode_append (l₁ l₂ : List Nat) :
    hexEncode (l₁ ++ l₂) = hexEncode l₁ ++ hexEncode l₂ := by
  simp [hexEncode]

/-- A minimum-width left-aligned field does not change an argument at
least as wide as the field. -/
theorem padLeftAlign_of_le (w : Nat) (s : List Nat) (h : w ≤ s.length) :
    padLeftAlign w s = s := by
  simp [padLeftAlign, Nat.sub_eq_zero_of_le h]

/-- Counterexample to claim C9: the `Debug` (and `Display`) output of a
concrete Ed25519 key contains the hex encoding of the complete 32-byte raw
key — the `{:<8}` format width only pads and never truncates — so the
output is not restricted to a proper fixed-width prefix of the key's hex
encoding. -/
theorem debugFmt_ed25519_full_key_shown :
    debugFmt (PublicKey.Ed25519 ⟨List.replicate 32 0⟩)
      = strCodes "PublicKey::" ++ strCodes "Ed25519(" ++
          hexEncode ((PublicKey.Ed25519 ⟨List.replicate 32 0⟩).to_bytes) ++
          strCodes ")" ∧
    (hexEncode ((PublicKey.Ed25519 ⟨List.replicate 32 0⟩).to_bytes)).length = 64 ∧
    displayFmt (PublicKey.Ed25519 ⟨List.replicate 32 0⟩)
      = debugFmt (PublicKey.Ed25519 ⟨List.replicate 32 0⟩) := by
  refine ⟨?_, by decide, rfl⟩
  simp only [debugFmt, PublicKey.to_bytes]
  rw [padLeftAlign_of_le 8 _ (by decide)]

/-- Claim C9 (amended): the Debug/Display output of a `PublicKey` is
deterministic and of fixed shape; for BLS and BLS-share keys only the hex
of the first 32 of the 48 key bytes is shown — a proper prefix (two thirds)
of the full hex encoding — while an Ed25519 key's output shows the hex of
the complete (fixed-length, 32-byte) key; the `{:<8}` width only pads,
never truncates. -/
theorem debugFmt_fixed_shape (pk : PublicKey) :
    displayFmt pk = debugFmt pk ∧
    (∀ k : Ed25519PublicKey, k.bytes.length = 32 →
      debugFmt (.Ed25519 k) = strCodes "PublicKey::" ++ strCodes "Ed25519(" ++
        hexEncode k.bytes ++ strCodes ")") ∧
    (∀ k : BlsPublicKey, k.bytes.length = 48 →
      debugFmt (.Bls k) = strCodes "PublicKey::" ++ strCodes "Bls(" ++
        hexEncode (k.bytes.take 32) ++ strCodes ")" ∧
      hexEncode k.bytes
        = hexEncode (k.bytes.take 32) ++ hexEncode (k.bytes.drop 32) ∧
      (hexEncode (k.bytes.take 32)).length = 64 ∧
      (hexEncode k.bytes).length = 96) ∧
    (∀ k : BlsSharePublicKey, k.bytes.length = 48 →
      debugFmt (.BlsShare k) = strCodes "PublicKey::" ++ strCodes "BlsShare(" ++
        hexEncode (k.bytes.take 32) ++ strCodes ")" ∧
      hexEncode k.bytes
        = hexEncode (k.bytes.take 32) ++ hexEncode (k.bytes.drop 32) ∧
      (hexEncode (k.bytes.take 32)).length = 64 ∧
      (hexEncode k.bytes).length = 96) := by
  refine ⟨rfl, ?_, ?_, ?_⟩
  · intro k hk
    have hlen : (hexEncode k.bytes).length = 64 := by rw [hexEncode_length, hk]
    simp only [debugFmt]
    rw [padLeftAlign_of_le 8 _ (by omega)]
  · intro k hk
    have ht : (k.bytes.take 32).length = 32 := by
      rw [List.length_take, hk]
      decide
    have hlen : (hexEncode (k.bytes.take 32)).length = 64 := by
      rw [hexEncode_length, ht]
    refine ⟨?_, ?_, hlen, by rw [hexEncode_length, hk]⟩
    · simp only [debugFmt]
      rw [padLeftAlign_of_le 8 _ (by omega)]
    · conv_lhs => rw [← List.take_append_drop 32 k.bytes]
      rw [hexEncode_append]
  · intro k hk
    have ht : (k.bytes.take 32).length = 32 := by
      rw [List.length_take, hk]
      decide
    have hlen : (hexEncode (k.bytes.take 32)).length = 64 := by
      rw [hexEncode_length, ht]
    refine ⟨?_, ?_, hlen, by rw [hexEncode_length, hk]⟩
    · simp only [debugFmt]
      rw [padLeftAlign_of_le 8 _ (by omega)]
    · conv_lhs => rw [← List.take_append_drop 32 k.bytes]
      rw [hexEncode_append]

/-- Witness for the amended C9: evaluated at a concrete BLS key. -/
theorem debugFmt_fixed_shape_witness :
    debugFmt (PublicKey.Bls ⟨List.replicate 48 0⟩)
      = strCodes "PublicKey::" ++ strCodes "Bls(" ++
        hexEncode ((List.replicate 48 0).take 32) ++ strCodes ")" :=
  ((debugFmt_fixed_shape (PublicKey.Bls ⟨List.replicate 48 0⟩)).2.2.1
    ⟨List.replicate 48 0⟩ (by decide)).1

/-- Claim C4: `resolve(FromStart(n), length)` is `Some(n)` exactly when
`n < length`; `resolve(FromEnd(n), length)` is `Some(length - n)` exactly
when `n ≤ length`, so `FromEnd(0)` resolves to `length` (one past the
last); every out-of-bounds index fails with an `InvalidIndex`-class error,
and a successful resolution is never a clamped offset. -/
theorem resolve_index_spec (n length : Nat) :
    (resolve (.FromStart n) length = some n ↔ n < length) ∧
    (resolve (.FromEnd n) length = some (length - n) ↔ n ≤ length) ∧
    resolve (.FromEnd 0) length = some length ∧
    (length ≤ n → resolve (.FromStart n) length = none ∧
      resolveOrErr (.FromStart n) length = .Err .InvalidIndex) ∧
    (length < n → resolve (.FromEnd n) length = none ∧
      resolveOrErr (.FromEnd n) length = .Err .InvalidIndex) ∧
    (∀ m, resolve (.FromStart n) length = some m → m = n ∧ m < length) ∧
    (∀ m, resolve (.FromEnd n) length = some m →
      m = length - n ∧ n ≤ length) := by
  refine ⟨?_, ?_, ?_, ?_, ?_, ?_, ?_⟩
  · by_cases h : n < length <;> simp [resolve, h]
  · by_cases h : n ≤ length <;> simp [resolve, h]
  · simp [resolve]
  · intro h
    have hlt : ¬ n < length := by omega
    exact ⟨by simp [resolve, hlt], by simp [resolveOrErr, resolve, hlt]⟩
  · intro h
    have hle : ¬ n ≤ length := by omega
    exact ⟨by simp [resolve, hle], by simp [resolveOrErr, resolve, hle]⟩
  · intro m hm
    by_cases h : n < length
    · simp [resolve, h] at hm
      omega
    · simp [resolve, h] at hm
  · intro m hm
    by_cases h : n ≤ length
    · simp [resolve, h] at hm
      omega
    · simp [resolve, h] at hm

/-- Witness for C4: resolution evaluated at concrete indices against
length 3. -/
theorem resolve_index_spec_witness :
    resolve (Index.FromStart 0) 3 = some 0 ∧
    resolve (Index.FromEnd 0) 3 = some 3 ∧
    resolveOrErr (Index.FromStart 5) 3 = .Err .InvalidIndex :=
  ⟨(resolve_index_spec 0 3).1.mpr (by decide),
    (resolve_index_spec 0 3).2.2.1,
    ((resolve_index_spec 5 3).2.2.2.1 (by decide)).2⟩

/-- Claim C2: the access decision passes the current owner for every
action regardless of the permissions history; on private data an
anonymous requester is always denied, and a specific key is allowed
exactly when the current (last) permissions-history entry explicitly
grants the action to that key — earlier history entries are never
consulted. -/
theorem access_decision_spec (histPub : List PubPermissionEntry)
    (histPriv : List PrivPermissionEntry) (requester : Requester)
    (action : AccessType) :
    isAllowedPub histPub .Owner action = true ∧
    isAllowedPriv histPriv .Owner action = true ∧
    isAllowedPriv histPriv .Anon action = false ∧
    (∀ k : PublicKey, isAllowedPriv histPriv (.Key k) action = true ↔
      ∃ entry, histPriv.getLast? = some entry ∧
        entry.grants k action = true) ∧
    (∀ h₂ : List PrivPermissionEntry, histPriv.getLast? = h₂.getLast? →
      isAllowedPriv histPriv requester action
        = isAllowedPriv h₂ requester action) := by
  refine ⟨rfl, rfl, rfl, ?_, ?_⟩
  · intro k
    cases h : histPriv.getLast? <;> simp [isAllowedPriv, h]
  · intro h₂ hl
    cases requester <;> simp [isAllowedPriv, hl]

/-- Witness for C2: a singleton private history granting `Append` to a
concrete key admits that key and denies the anonymous requester. -/
theorem access_decision_spec_witness :
    isAllowedPriv [⟨[(PublicKey.Ed25519 ⟨[]⟩, [AccessType.Append])]⟩]
        (.Key (PublicKey.Ed25519 ⟨[]⟩)) .Append = true ∧
    isAllowedPriv [⟨[(PublicKey.Ed25519 ⟨[]⟩, [AccessType.Append])]⟩]
        .Anon .Read = false :=
  ⟨((access_decision_spec [] [⟨[(PublicKey.Ed25519 ⟨[]⟩, [AccessType.Append])]⟩]
        (.Key (PublicKey.Ed25519 ⟨[]⟩)) .Append).2.2.2.1
      (PublicKey.Ed25519 ⟨[]⟩)).mpr ⟨_, rfl, by decide⟩,
    (access_decision_spec [] [⟨[(PublicKey.Ed25519 ⟨[]⟩, [AccessType.Append])]⟩]
        .Anon .Read).2.2.1⟩

/-- Claim C3: a version-scoped write with `expected_index` equal to the
length of the targeted history succeeds and extends that history by one;
any other `expected_index` fails with `VersionConflict` and produces no
changed Sequence; in particular the same `SetOwner` repeated with the same
`expected_index` fails with `VersionConflict` the second time. -/
theorem versioned_write_optimistic (s : Sequence) (o : Owner)
    (pp : PublicPermissions) (vp : PrivatePermissions) (k : Nat) :
    (k = s.owners.length →
      Sequence.set_owner s o k = .Ok { s with owners := s.owners ++ [o] } ∧
      (s.owners ++ [o]).length = s.owners.length + 1) ∧
    (k ≠ s.owners.length →
      Sequence.set_owner s o k = .Err .VersionConflict) ∧
    (∀ s₂, Sequence.set_owner s o k = .Ok s₂ →
      Sequence.set_owner s₂ o k = .Err .VersionConflict) ∧
    (k = s.pub_permissions.length →
      Sequence.set_pub_permissions s pp k
        = .Ok { s with pub_permissions := s.pub_permissions ++ [pp] } ∧
      (s.pub_permissions ++ [pp]).length = s.pub_permissions.length + 1) ∧
    (k ≠ s.pub_permissions.length →
      Sequence.set_pub_permissions s pp k = .Err .VersionConflict) ∧
    (k = s.priv_permissions.length →
      Sequence.set_priv_permissions s vp k
        = .Ok { s with priv_permissions := s.priv_permissions ++ [vp] } ∧
      (s.priv_permissions ++ [vp]).length = s.priv_permissions.length + 1) ∧
    (k ≠ s.priv_permissions.length →
      Sequence.set_priv_permissions s vp k = .Err .VersionConflict) := by
  refine ⟨?_, ?_, ?_, ?_, ?_, ?_, ?_⟩
  · intro h
    exact ⟨by simp [Sequence.set_owner, h], by simp⟩
  · intro h
    simp [Sequence.set_owner, h]
  · intro s₂ h
    by_cases hk : k = s.owners.length
    · simp only [Sequence.set_owner, if_pos hk, RustResult.Ok.injEq] at h
      rw [← h]
      simp [Sequence.set_owner]
      omega
    · simp [Sequence.set_owner, hk] at h
  · intro h
    exact ⟨by simp [Sequence.set_pub_permissions, h], by simp⟩
  · intro h
    simp [Sequence.set_pub_permissions, h]
  · intro h
    exact ⟨by simp [Sequence.set_priv_permissions, h], by simp⟩
  · intro h
    simp [Sequence.set_priv_permissions, h]

/-- Witness for C3: on a concrete Sequence with empty owner history, a
`SetOwner` at `expected_index = 0` succeeds and its exact repetition fails
with `VersionConflict`. -/
theorem versioned_write_optimistic_witness :
    Sequence.set_owner ⟨Address.Private [], [], [], [], []⟩
        ⟨PublicKey.Ed25519 ⟨[]⟩, 0, 0⟩ 0
      = .Ok ⟨Address.Private [], [], [⟨PublicKey.Ed25519 ⟨[]⟩, 0, 0⟩], [], []⟩ ∧
    Sequence.set_owner
        ⟨Address.Private [], [], [⟨PublicKey.Ed25519 ⟨[]⟩, 0, 0⟩], [], []⟩
        ⟨PublicKey.Ed25519 ⟨[]⟩, 0, 0⟩ 0
      = .Err .VersionConflict :=
  ⟨((versioned_write_optimistic ⟨Address.Private [], [], [], [], []⟩
        ⟨PublicKey.Ed25519 ⟨[]⟩, 0, 0⟩ ⟨[]⟩ ⟨[]⟩ 0).1 rfl).1,
    (versioned_write_optimistic ⟨Address.Private [], [], [], [], []⟩
        ⟨PublicKey.Ed25519 ⟨[]⟩, 0, 0⟩ ⟨[]⟩ ⟨[]⟩ 0).2.2.1 _
      ((versioned_write_optimistic ⟨Address.Private [], [], [], [], []⟩
        ⟨PublicKey.Ed25519 ⟨[]⟩, 0, 0⟩ ⟨[]⟩ ⟨[]⟩ 0).1 rfl).1⟩

/-- Claim C6: whole-object deletion at a public address fails with an
`InvalidOperation`-class error and leaves the store unchanged (no partial
deletion); deletion succeeds only at private addresses. -/
theorem delete_public_rejected (store : List (Address × Sequence))
    (address : Address) :
    (address.is_pub = true →
      applyDelete store address = (store, some Error.InvalidOperation)) ∧
    (address.is_pub = false → (applyDelete store address).2 = none) := by
  constructor <;> intro h <;> simp [applyDelete, h]

/-- Witness for C6: deleting at a concrete public address leaves a
one-element store untouched and reports `InvalidOperation`. -/
theorem delete_public_rejected_witness :
    applyDelete [(Address.Public [1], ⟨Address.Public [1], [], [], [], []⟩)]
        (Address.Public [1])
      = ([(Address.Public [1], ⟨Address.Public [1], [], [], [], []⟩)],
          some Error.InvalidOperation) :=
  (delete_public_rejected _ _).1 rfl

/-- Claim C5: `error_response` always encloses `Err(e)` — every read
variant of `Request` maps to its matching read-response variant carrying
the error, every write variant maps uniformly to `Mutation(Err(e))`, no
variant produces an `Ok`-shaped response; likewise `SequenceRead` maps
each read to its `GetSData*` variant and `SequenceWrite` maps uniformly to
`Write(Err(e))`. -/
theorem error_response_always_err (r : Request) (e : Error) :
    (r.error_response e).enclosedResult = .Err e ∧
    (r.is_write = true → r.error_response e = .Mutation (.Err e)) ∧
    (r.is_write = false → ∀ res, r.error_response e ≠ .Mutation res) ∧
    (∀ sr : SequenceRead, (sr.error_response e).enclosedResult = .Err e) ∧
    (∀ sw : SequenceWrite, sw.error_response e = .Write (.Err e)) := by
  refine ⟨?_, ?_, ?_, ?_, fun sw => rfl⟩
  · cases r <;> rfl
  · intro h
    cases r <;> first
      | rfl
      | exact absurd h (by simp [Request.is_write])
  · intro h res
    cases r <;> simp_all [Request.is_write, Request.error_response]
  · intro sr
    cases sr <;> rfl

/-- Witness for C5: evaluated at a concrete write request and a concrete
read request. -/
theorem error_response_always_err_witness :
    Request.error_response
        (Request.SetOwner (Address.Private []) ⟨PublicKey.Ed25519 ⟨[]⟩, 0, 0⟩ 0)
        Error.AccessDenied
      = Response.Mutation (.Err Error.AccessDenied) ∧
    (Request.error_response (Request.GetBlob (BlobAddress.Public []))
        Error.AccessDenied).enclosedResult = .Err Error.AccessDenied :=
  ⟨(error_response_always_err _ _).2.1 rfl,
    (error_response_always_err (Request.GetBlob (BlobAddress.Public []))
      Error.AccessDenied).1⟩

/-- Claim C10: for every `SequenceRead`, `get_type` and
`authorisation_kind` agree — `Type::PublicRead` exactly when the kind is
`Data(PublicRead)` and `Type::PrivateRead` exactly when it is
`Data(PrivateRead)`, both determined by the address; every `SequenceWrite`
has `get_type = Type::Write` and kind `Data(Write)`. -/
theorem get_type_authorisation_agree (r : SequenceRead) (w : SequenceWrite) :
    (r.get_type = RwType.PublicRead ↔
      r.authorisation_kind = AuthorisationKind.Data DataAuthKind.PublicRead) ∧
    (r.get_type = RwType.PrivateRead ↔
      r.authorisation_kind = AuthorisationKind.Data DataAuthKind.PrivateRead) ∧
    w.get_type = RwType.Write ∧
    w.authorisation_kind = AuthorisationKind.Data DataAuthKind.Write := by
  refine ⟨?_, ?_, rfl, rfl⟩ <;>
    cases r <;>
      simp only [SequenceRead.get_type, SequenceRead.authorisation_kind] <;>
      split <;> simp_all

/-- Witness for C10: evaluated at a concrete read of a public address and
a concrete write. -/
theorem get_type_authorisation_agree_witness :
    SequenceRead.get_type (SequenceRead.Get (Address.Public []))
      = RwType.PublicRead ∧
    SequenceWrite.get_type (SequenceWrite.Delete (Address.Public []))
      = RwType.Write ∧
    SequenceWrite.authorisation_kind (SequenceWrite.Delete (Address.Public []))
      = AuthorisationKind.Data DataAuthKind.Write :=
  ⟨(get_type_authorisation_agree (SequenceRead.Get (Address.Public []))
      (SequenceWrite.Delete (Address.Public []))).1.mpr (by decide),
    (get_type_authorisation_agree (SequenceRead.Get (Address.Public []))
      (SequenceWrite.Delete (Address.Public []))).2.2.1,
    (get_type_authorisation_agree (SequenceRead.Get (Address.Public []))
      (SequenceWrite.Delete (Address.Public []))).2.2.2⟩

end Snd
